import Mathlib

/-!
Verification of `smac/smbo/smbo.py` (SMBO: sequential model-based
optimization loop).  The Python source is shallowly embedded: pure pieces
become Lean functions, the random sources and the external collaborators
(configuration space, surrogate model, acquisition function, executor,
budget counters) become explicit parameters, and fallible code returns
`Option`/`Except`.  Costs are modelled as rationals; machine floats carry
no claim here, only which values flow where.
-/

namespace SMAC

/-- Modelled from the spec: the `StatusType` enumeration of
`smac.tae.execute_ta_run` (that module is not under `src/`); the spec data
model lists the statuses SUCCESS, TIMEOUT, CRASHED, ABORT, MEMOUT. -/
inductive StatusType where
  | SUCCESS
  | TIMEOUT
  | CRASHED
  | ABORT
  | MEMOUT
deriving DecidableEq

/-- Modelled from the spec: the Python integer values of the `StatusType`
members (SUCCESS = 1 … MEMOUT = 5); only their truthiness (being nonzero)
matters for the boolean short-circuit below. -/
def StatusType.toNat : StatusType → Nat
  | .SUCCESS => 1
  | .TIMEOUT => 2
  | .CRASHED => 3
  | .ABORT => 4
  | .MEMOUT => 5

/-- Python `a or b` on two status values: it yields `a` when `a` is truthy
(nonzero integer value), else `b`.  This models the expression
`StatusType.CRASHED or StatusType.ABORT` on line 168 of smbo.py, which is a
single value, not a two-element list. -/
def pyOr (a b : StatusType) : StatusType :=
  if a.toNat ≠ 0 then a else b

/-- Modelled from the spec: one observation value of the RunHistory ledger
(data model: status, observed cost, runtime, free-form additional info). -/
structure RunValue where
  status : StatusType
  cost : ℚ
  time : ℚ
  additional_info : String
deriving DecidableEq

/-- Modelled from the spec: a RunKey (configuration identity, instance
identifier, seed). -/
structure RunKey (Config : Type) where
  config : Config
  inst : String
  seed : ℕ
deriving DecidableEq

/-- Modelled from the spec: the RunHistory ledger (`runhistory.py` is not
under `src/`): RunKey → RunValue entries in insertion order, plus the
memoized per-configuration aggregate cost written by `update_cost` and read
by `get_cost`. -/
structure RunHistory (Config : Type) where
  data : List (RunKey Config × RunValue)
  cost_per_config : List (Config × ℚ)

/-- Modelled from the spec: `RunHistory.empty()` is true iff the ledger has
no entries. -/
def RunHistory.empty {Config : Type} (rh : RunHistory Config) : Bool :=
  rh.data.isEmpty

/-- Modelled from the spec: `RunHistory.add` records an observation for the
given key.  The duplicate-key policy is an open question of the spec and no
claim below depends on it; the model appends. -/
def RunHistory.add {Config : Type} (rh : RunHistory Config) (config : Config)
    (cost time : ℚ) (status : StatusType) (instance_id : String) (seed : ℕ)
    (additional_info : String) : RunHistory Config :=
  { rh with
    data := rh.data ++
      [(⟨config, instance_id, seed⟩, ⟨status, cost, time, additional_info⟩)] }

/-- Modelled from the spec: `get_runs_for_config` returns the
(instance, seed) pairs recorded for the configuration. -/
def RunHistory.get_runs_for_config {Config : Type} [DecidableEq Config]
    (rh : RunHistory Config) (c : Config) : List (String × ℕ) :=
  (rh.data.filter (fun e => decide (e.1.config = c))).map
    (fun e => (e.1.inst, e.1.seed))

/-- Modelled from the spec: `update_cost` stores the aggregate cost for the
configuration (a Python dict assignment; lookups read the newest binding). -/
def RunHistory.update_cost {Config : Type} (rh : RunHistory Config)
    (c : Config) (v : ℚ) : RunHistory Config :=
  { rh with cost_per_config := (c, v) :: rh.cost_per_config }

/-- Modelled from the spec: `get_cost` returns the memoized aggregate cost
of a configuration; querying a never-evaluated configuration is a KeyError
(UnknownConfigError in the spec taxonomy), modelled by `none`. -/
def RunHistory.get_cost? {Config : Type} [DecidableEq Config]
    (rh : RunHistory Config) (c : Config) : Option ℚ :=
  (rh.cost_per_config.find? (fun p => decide (p.1 = c))).map (fun p => p.2)

/-- Cost lookup through the optional incumbent pointer (`self.incumbent` is
`None` until the initial design sets it). -/
def RunHistory.get_cost_opt {Config : Type} [DecidableEq Config]
    (rh : RunHistory Config) (c : Option Config) : Option ℚ :=
  c.bind (fun cfg => rh.get_cost? cfg)

/-- Result of `SMBO.run_initial_design`: either the process exited (with the
given exit code, `sys.exit(42)`) or the run was recorded in the history. -/
structure InitialDesignOutcome (Config : Type) where
  exitCode : Option ℕ
  runhistory : RunHistory Config
  incumbent : Option Config

/-- Embedding of `SMBO.run_initial_design` (smbo.py lines 144–180).  The
default configuration, the randomly drawn training instance and the initial
seed are inputs (their draws happen before the guarded region); the
executor's result tuple (status, cost, runtime, additional info) is an
input, since the target-algorithm runner is an external collaborator.  The
abort guard is the source's `status in [StatusType.CRASHED or
StatusType.ABORT]`, a membership test against the single value
`pyOr CRASHED ABORT`. -/
def run_initial_design {Config : Type} [DecidableEq Config]
    (objective : Config → RunHistory Config → List (String × ℕ) → ℚ)
    (rh : RunHistory Config) (default_conf : Config) (rand_inst : String)
    (initial_seed : ℕ) (status : StatusType) (cost runtime : ℚ)
    (additional_info : String) : InitialDesignOutcome Config :=
  if status ∈ [pyOr StatusType.CRASHED StatusType.ABORT] then
    { exitCode := some 42, runhistory := rh, incumbent := some default_conf }
  else
    let rh1 := rh.add default_conf cost runtime status rand_inst initial_seed
      additional_info
    let defaul_inst_seeds := rh1.get_runs_for_config default_conf
    let default_perf := objective default_conf rh1 defaul_inst_seeds
    { exitCode := none,
      runhistory := rh1.update_cost default_conf default_perf,
      incumbent := some default_conf }

/-- Constructor arguments that `SMBO.__init__` passes to `RunHistory2EPM`
(smbo.py lines 127–141); the transform itself is an external collaborator. -/
structure RunHistory2EPMArgs where
  num_params : ℕ
  success_states : List StatusType
  impute_censored_data : Bool
  impute_state : Option (List StatusType)
  log_y : Bool
deriving DecidableEq

/-- Constructor arguments that `SMBO.__init__` passes to `RFRImputator`
(smbo.py lines 120–126); only the scalar thresholds are modelled, the
surrogate model handle carries no data here. -/
structure RFRImputatorArgs where
  cutoff : ℚ
  threshold : ℚ
  change_threshold : ℚ
  max_iter : ℕ
deriving DecidableEq

/-- Which aggregate objective `SMBO.__init__` selects (smbo.py lines
134 and 142). -/
inductive ObjectiveKind where
  | total_cost
  | average_cost
deriving DecidableEq

/-- Everything the run-objective branch of `SMBO.__init__` configures. -/
structure Rh2EPMSetup where
  rh2epm : RunHistory2EPMArgs
  imputor : Option RFRImputatorArgs
  objective : ObjectiveKind

/-- Embedding of the run-objective branch of `SMBO.__init__` (smbo.py lines
106–142).  `log10` abstracts `np.log10`; it is a parameter because the model
only tracks which function is applied to which value.  The inner duplicated
`run_obj == "runtime"` test of the source is kept. -/
def smboInitRh2EPM (log10 : ℚ → ℚ) (run_obj : String) (cutoff par_factor : ℚ)
    (num_params : ℕ) : Rh2EPMSetup :=
  if run_obj = "runtime" then
    let icutoff := if run_obj = "runtime" then log10 cutoff else cutoff
    let threshold := if run_obj = "runtime" then log10 (cutoff * par_factor)
      else cutoff * par_factor
    { rh2epm :=
        { num_params := num_params
          success_states := [StatusType.SUCCESS]
          impute_censored_data := true
          impute_state := some [StatusType.TIMEOUT]
          log_y := run_obj == "runtime" }
      imputor := some
        { cutoff := icutoff
          threshold := threshold
          change_threshold := 1 / 100
          max_iter := 10 }
      objective := ObjectiveKind.total_cost }
  else
    { rh2epm :=
        { num_params := num_params
          success_states := [StatusType.SUCCESS]
          impute_censored_data := false
          impute_state := none
          log_y := run_obj == "runtime" }
      imputor := none
      objective := ObjectiveKind.average_cost }

/-- Closed variant of the hyperparameter kinds that the duck-typed
`isinstance` cascade of `SMBO.__init__` distinguishes (smbo.py lines 63–79);
`other` stands for any class outside the four known ones. -/
inductive HPKind where
  | categorical (choices : List String)
  | constant
  | uniformFloat
  | uniformInt
  | other (typeName : String)
deriving DecidableEq

/-- Type-vector entry for one hyperparameter: the number of choices for a
categorical, 0 for constant / uniform float / uniform integer, and a
`TypeError` for anything else (smbo.py lines 67–79). -/
def hpTypeEntry : HPKind → Except String ℕ
  | .categorical choices => .ok choices.length
  | .constant => .ok 0
  | .uniformFloat => .ok 0
  | .uniformInt => .ok 0
  | .other typeName => .error ("Unknown hyperparameter type " ++ typeName)

/-- The per-hyperparameter part of the type vector, in declaration order;
the loop raises at the first unknown hyperparameter kind. -/
def typeEntries : List HPKind → Except String (List ℕ)
  | [] => .ok []
  | p :: rest =>
    match hpTypeEntry p with
    | .error e => .error e
    | .ok v =>
      match typeEntries rest with
      | .error e => .error e
      | .ok es => .ok (v :: es)

/-- Embedding of the type-vector construction of `SMBO.__init__` (smbo.py
lines 63–85): the per-hyperparameter entries, then — when the scenario has a
feature array (`some d` with `d` feature columns) — a zero for every
instance-feature column. -/
def buildTypes (hps : List HPKind) (feature_dims : Option ℕ) :
    Except String (List ℕ) :=
  match typeEntries hps with
  | .error e => .error e
  | .ok base =>
    match feature_dims with
    | some d => .ok (base ++ List.replicate d 0)
    | none => .ok base

/-- Value of a type-vector entry for a known hyperparameter kind. -/
def hpEntryVal : HPKind → ℕ
  | .categorical choices => choices.length
  | _ => 0

/-- External collaborators that `choose_next` calls, threaded through an
explicit random state `ρ` that covers every random source the call touches
(the numpy RandomState `self.rng` and the configuration space's own rng):
`sampleConfigs n` is `config_space.sample_configuration(size=n)`,
`sampleConfig` the single-sample form, `rand n` is `self.rng.rand(n)`,
`shuffle` is the stdlib Fisher–Yates `random.shuffle(·, self.rng.rand)`,
`train` is `model.train(X, Y)`, `acq m eta c` is the acquisition function
after `update(model=m, eta)` applied to the imputed array encoding of `c`
(the composition `acquisition_func ∘ get_array ∘ impute_inactive_values`),
and `maximize m eta` is `local_search.maximize` under the same bound
acquisition function. -/
structure SmboOps (Config ρ Model : Type) where
  sampleConfigs : ℕ → ρ → List Config × ρ
  sampleConfig : ρ → Config × ρ
  rand : ℕ → ρ → List ℚ × ρ
  shuffle : List (ℚ × Config) → ρ → List (ℚ × Config) × ρ
  train : List (List ℚ) → List ℚ → Model
  acq : Model → ℚ → Config → ℚ
  maximize : Model → ℚ → Config → Config × ℚ

/-- Lexicographic order modelling `np.lexsort((random, acq_values))`:
ascending in the primary key (the acquisition value, the last lexsort
column), ties ascending in the secondary key (the uniform random
tiebreaker). -/
def lexLe (p q : ℚ × ℚ) : Bool :=
  decide (p.1 < q.1 ∨ (p.1 = q.1 ∧ p.2 ≤ q.2))

/-- Stable ascending lexicographic sort of ((acq, tiebreak), payload)
triples followed by the `[::-1]` reversal of the source.  `np.lexsort`
returns a stable ascending argsort of its keys; gathering a list along that
argsort is the same as stably sorting the key/payload pairs, which is what
`List.mergeSort` does. -/
def lexsortDesc {Config : Type} (pairs : List ((ℚ × ℚ) × Config)) :
    List ((ℚ × ℚ) × Config) :=
  (pairs.mergeSort (fun a b => lexLe a.1 b.1)).reverse

/-- Embedding of `SMBO._get_next_by_random_search` (smbo.py lines 289–329).
In the sorted branch the sampled configurations are scored by the bound
acquisition function, one uniform random tiebreak key per configuration is
drawn from `self.rng`, and the (value, configuration) pairs come back in
descending lexicographic (acquisition, tiebreak) order; in the unsorted
branch every configuration is paired with the dummy value 0. -/
def getNextByRandomSearch {Config ρ : Type}
    (sampleConfigs : ℕ → ρ → List Config × ρ) (rand : ℕ → ρ → List ℚ × ρ)
    (acqf : Config → ℚ) (num_points : ℕ) (sortedFlag : Bool) (st : ρ) :
    List (ℚ × Config) × ρ :=
  let sampled := sampleConfigs num_points st
  let rand_configs := sampled.1
  if sortedFlag then
    let acq_values := rand_configs.map acqf
    let drawn := rand rand_configs.length sampled.2
    let pairs := (acq_values.zip drawn.1).zip rand_configs
    ((lexsortDesc pairs).map (fun p => (p.1.1, p.2)), drawn.2)
  else
    (rand_configs.map (fun c => ((0 : ℚ), c)), sampled.2)

/-- Embedding of `SMBO._get_next_by_local_search` (smbo.py lines 331–367):
`num_points` hill-climbs, the first starting from the incumbent when one is
set and every other from a fresh random sample; the (value, configuration)
results are shuffled for random tie-break and then stably sorted descending
by acquisition value.  `localSearchStep` is the body of the
`for i in range(num_points)` loop. -/
def localSearchStep {Config ρ Model : Type} (ops : SmboOps Config ρ Model)
    (model : Model) (eta : ℚ) (incumbent : Option Config)
    (acc : List (ℚ × Config) × ρ) (i : ℕ) : List (ℚ × Config) × ρ :=
  let sp :=
    match i, incumbent with
    | 0, some inc => (inc, acc.2)
    | _, _ => ops.sampleConfig acc.2
  let res := ops.maximize model eta sp.1
  (acc.1 ++ [(res.2, res.1)], sp.2)

def getNextByLocalSearch {Config ρ Model : Type} (ops : SmboOps Config ρ Model)
    (model : Model) (eta : ℚ) (incumbent : Option Config) (num_points : ℕ)
    (st : ρ) : List (ℚ × Config) × ρ :=
  let folded := (List.range num_points).foldl
    (localSearchStep ops model eta incumbent) ([], st)
  let shuffled := ops.shuffle folded.1 folded.2
  (shuffled.1.mergeSort (fun a b => decide (b.1 ≤ a.1)), shuffled.2)

/-- All intermediate pools of one `choose_next` call, named after the local
variables of the source. -/
structure ChooseNextParts (Config ρ : Type) where
  eta : ℚ
  next_configs_by_random_search : List Config
  next_configs_by_random_search_sorted : List (ℚ × Config)
  next_configs_by_local_search : List (ℚ × Config)
  next_configs_by_acq_value : List Config
  challengers : List Config
  finalState : ρ

/-- The `eta` bound into the acquisition function by `choose_next` (smbo.py
lines 263–268): the incumbent's aggregate cost from the RunHistory, or 0.0
when the RunHistory is empty. -/
def chooseNextEta {Config : Type} [DecidableEq Config] (rh : RunHistory Config)
    (incumbent : Option Config) : ℚ :=
  if rh.empty then 0 else (rh.get_cost_opt incumbent).getD 0

/-- The acquisition function as `choose_next` leaves it after
`model.train(X, Y)` and `acquisition_func.update(model, eta)` (smbo.py
lines 261–268). -/
def chooseNextAcqf {Config ρ Model : Type} [DecidableEq Config]
    (ops : SmboOps Config ρ Model) (X : List (List ℚ)) (Y : List ℚ)
    (rh : RunHistory Config) (incumbent : Option Config) : Config → ℚ :=
  fun c => ops.acq (ops.train X Y) (chooseNextEta rh incumbent) c

/-- Stage (smbo.py lines 270–272): `next_configs_by_random_search`, the
unscored pool, drawn with `num_points=1010` (dummy value stripped later). -/
def chooseNextRandomPool {Config ρ Model : Type} [DecidableEq Config]
    (ops : SmboOps Config ρ Model) (X : List (List ℚ)) (Y : List ℚ)
    (rh : RunHistory Config) (incumbent : Option Config) (st : ρ) :
    List (ℚ × Config) × ρ :=
  getNextByRandomSearch ops.sampleConfigs ops.rand
    (chooseNextAcqf ops X Y rh incumbent) 1010 false st

/-- Stage (smbo.py lines 274–276): `next_configs_by_random_search_sorted`,
1000 random configurations sorted by EI. -/
def chooseNextSortedPool {Config ρ Model : Type} [DecidableEq Config]
    (ops : SmboOps Config ρ Model) (X : List (List ℚ)) (Y : List ℚ)
    (rh : RunHistory Config) (incumbent : Option Config) (st : ρ) :
    List (ℚ × Config) × ρ :=
  getNextByRandomSearch ops.sampleConfigs ops.rand
    (chooseNextAcqf ops X Y rh incumbent) 1000 true
    (chooseNextRandomPool ops X Y rh incumbent st).2

/-- Stage (smbo.py lines 277–278): `next_configs_by_local_search`, 10
local-search results. -/
def chooseNextLocalPool {Config ρ Model : Type} [DecidableEq Config]
    (ops : SmboOps Config ρ Model) (X : List (List ℚ)) (Y : List ℚ)
    (rh : RunHistory Config) (incumbent : Option Config) (st : ρ) :
    List (ℚ × Config) × ρ :=
  getNextByLocalSearch ops (ops.train X Y) (chooseNextEta rh incumbent)
    incumbent 10 (chooseNextSortedPool ops X Y rh incumbent st).2

/-- Stage (smbo.py lines 280–282): `next_configs_by_acq_value`, the merge of
the sorted random pool and the local-search pool, stably re-sorted
descending by acquisition value (`sort(reverse=True, key=x[0])`). -/
def chooseNextMerged {Config ρ Model : Type} [DecidableEq Config]
    (ops : SmboOps Config ρ Model) (X : List (List ℚ)) (Y : List ℚ)
    (rh : RunHistory Config) (incumbent : Option Config) (st : ρ) :
    List (ℚ × Config) :=
  ((chooseNextSortedPool ops X Y rh incumbent st).1 ++
    (chooseNextLocalPool ops X Y rh incumbent st).1).mergeSort
    (fun a b => decide (b.1 ≤ a.1))

/-- Embedding of `SMBO.choose_next` (smbo.py lines 245–287), assembled from
the stages above: the challenger list interleaves the value-stripped merge
with the value-stripped unscored pool via `chain(*zip(...))`. -/
def chooseNextParts {Config ρ Model : Type} [DecidableEq Config]
    (ops : SmboOps Config ρ Model) (X : List (List ℚ)) (Y : List ℚ)
    (rh : RunHistory Config) (incumbent : Option Config) (st : ρ) :
    ChooseNextParts Config ρ :=
  { eta := chooseNextEta rh incumbent
    next_configs_by_random_search :=
      (chooseNextRandomPool ops X Y rh incumbent st).1.map (fun p => p.2)
    next_configs_by_random_search_sorted :=
      (chooseNextSortedPool ops X Y rh incumbent st).1
    next_configs_by_local_search :=
      (chooseNextLocalPool ops X Y rh incumbent st).1
    next_configs_by_acq_value :=
      (chooseNextMerged ops X Y rh incumbent st).map (fun p => p.2)
    challengers :=
      (((chooseNextMerged ops X Y rh incumbent st).map (fun p => p.2)).zip
        ((chooseNextRandomPool ops X Y rh incumbent st).1.map (fun p => p.2))).flatMap
        (fun p => [p.1, p.2])
    finalState := (chooseNextLocalPool ops X Y rh incumbent st).2 }

/-- The ((acquisition value, random tiebreak key), configuration) triples
that the sorted random-search stage of `choose_next` builds before
lexsorting (smbo.py lines 306–317, entered with `num_points` = 1000 from
the random state the unscored draw left behind). -/
def chooseNextSortKeyed {Config ρ Model : Type} [DecidableEq Config]
    (ops : SmboOps Config ρ Model) (X : List (List ℚ)) (Y : List ℚ)
    (rh : RunHistory Config) (incumbent : Option Config) (st : ρ) :
    List ((ℚ × ℚ) × Config) :=
  let sampled := ops.sampleConfigs 1000
    (chooseNextRandomPool ops X Y rh incumbent st).2
  let acq_values := sampled.1.map (chooseNextAcqf ops X Y rh incumbent)
  let drawn := ops.rand sampled.1.length sampled.2
  (acq_values.zip drawn.1).zip sampled.1

/-- `choose_next` proper: it returns the challenger list (the final random
state is carried along for explicitness). -/
def chooseNext {Config ρ Model : Type} [DecidableEq Config]
    (ops : SmboOps Config ρ Model) (X : List (List ℚ)) (Y : List ℚ)
    (rh : RunHistory Config) (incumbent : Option Config) (st : ρ) :
    List Config × ρ :=
  let parts := chooseNextParts ops X Y rh incumbent st
  (parts.challengers, parts.finalState)

/-- Contracts of the external collaborators (spec, external interfaces):
the configuration space returns exactly the requested number of samples,
`rng.rand(n)` returns `n` draws, and the stdlib shuffle permutes its
input. -/
structure OpsContracts {Config ρ Model : Type}
    (ops : SmboOps Config ρ Model) : Prop where
  sample_len : ∀ n st, ((ops.sampleConfigs n st).1).length = n
  rand_len : ∀ n st, ((ops.rand n st).1).length = n
  shuffle_perm : ∀ l st, ((ops.shuffle l st).1).Perm l

/-- Embedding of the main loop of `SMBO.run` (smbo.py lines 202–243).
`step k` is the body of iteration `k` (transform → choose_next → intensify)
as a state transformer over the abstract solver state (incumbent and
RunHistory); `budgetNeg k` is true when, after `k` completed iterations, one
of the three Stats counters (remaining wall-clock budget, remaining
target-algorithm budget, remaining runs) reads negative.  The `fuel`
argument makes the recursion structural; `none` means the loop did not
terminate within the given fuel. -/
def smboLoopAux {σ : Type} (step : ℕ → σ → σ) (budgetNeg : ℕ → Bool)
    (max_iters : ℕ) : ℕ → ℕ → σ → Option (σ × ℕ)
  | 0, _, _ => none
  | fuel + 1, iteration, s =>
    let s1 := step iteration s
    if iteration = max_iters then some (s1, iteration)
    else if budgetNeg iteration then some (s1, iteration)
    else smboLoopAux step budgetNeg max_iters fuel (iteration + 1) s1

/-- Embedding of `SMBO.run` after the initial design: the loop starts at
iteration 1; fuel `max_iters` is enough for every `max_iters ≥ 1` (proved
below).  The returned pair is the final solver state (whose incumbent `run`
returns) and the number of completed iterations. -/
def smboRun {σ : Type} (step : ℕ → σ → σ) (budgetNeg : ℕ → Bool)
    (max_iters : ℕ) (s0 : σ) : Option (σ × ℕ) :=
  smboLoopAux step budgetNeg max_iters max_iters 1 s0

/-- State after executing iterations i, i+1, …, i+cnt-1 of the loop body. -/
def foldIters {σ : Type} (step : ℕ → σ → σ) (i cnt : ℕ) (s : σ) : σ :=
  (List.range' i cnt).foldl (fun t k => step k t) s

/-- Concrete instantiation of the external collaborators, used to evaluate
the theorems on explicit inputs: configurations are naturals, the random
state is a call counter, the surrogate model carries no data, acquisition
values are all zero. -/
def trivOps : SmboOps ℕ ℕ Unit where
  sampleConfigs := fun n st => (List.range n, st + 1)
  sampleConfig := fun st => (st, st + 1)
  rand := fun n st => (List.replicate n 0, st + 1)
  shuffle := fun l st => (l, st + 1)
  train := fun _ _ => ()
  acq := fun _ _ _ => 0
  maximize := fun _ _ c => (c, 0)

/-! Helper lemmas. -/

theorem flatMap_pair_length {α : Type} (l : List (α × α)) :
    (l.flatMap (fun p => [p.1, p.2])).length = 2 * l.length := by
  induction l with
  | nil => simp
  | cons p rest ih => simp [List.flatMap_cons, ih]; omega

theorem interleave_getElem_even {α : Type} (l : List (α × α)) (i : ℕ) :
    (l.flatMap (fun p => [p.1, p.2]))[2 * i]? = l[i]?.map (fun p => p.1) := by
  induction l generalizing i with
  | nil => simp
  | cons p rest ih =>
    cases i with
    | zero => simp
    | succ j =>
      have h2 : 2 * (j + 1) = 2 * j + 1 + 1 := by ring
      simp only [List.flatMap_cons, List.cons_append, List.nil_append, h2,
        List.getElem?_cons_succ, ih, List.singleton_append]

theorem interleave_getElem_odd {α : Type} (l : List (α × α)) (i : ℕ) :
    (l.flatMap (fun p => [p.1, p.2]))[2 * i + 1]? = l[i]?.map (fun p => p.2) := by
  induction l generalizing i with
  | nil => simp
  | cons p rest ih =>
    cases i with
    | zero => simp
    | succ j =>
      have h2 : 2 * (j + 1) + 1 = 2 * j + 1 + 1 + 1 := by ring
      simp only [List.flatMap_cons, List.cons_append, List.nil_append, h2,
        List.getElem?_cons_succ, ih, List.singleton_append]

theorem zip_getElem_fst {α β : Type} (A : List α) (B : List β) (i : ℕ)
    (h : i < B.length) : ((A.zip B)[i]?).map Prod.fst = A[i]? := by
  induction A generalizing B i with
  | nil => simp
  | cons a rest ih =>
    cases B with
    | nil => simp at h
    | cons b bs =>
      cases i with
      | zero => simp
      | succ j =>
        simp only [List.zip_cons_cons, List.getElem?_cons_succ]
        exact ih bs j (by simpa using h)

theorem zip_getElem_snd {α β : Type} (A : List α) (B : List β) (i : ℕ)
    (h : i < A.length) : ((A.zip B)[i]?).map Prod.snd = B[i]? := by
  induction A generalizing B i with
  | nil => simp at h
  | cons a rest ih =>
    cases B with
    | nil => simp
    | cons b bs =>
      cases i with
      | zero => simp
      | succ j =>
        simp only [List.zip_cons_cons, List.getElem?_cons_succ]
        exact ih bs j (by simpa using h)

theorem lexLe_trans (a b c : ℚ × ℚ) (hab : lexLe a b = true)
    (hbc : lexLe b c = true) : lexLe a c = true := by
  simp only [lexLe, decide_eq_true_eq] at *
  rcases hab with h1 | ⟨h1, h2⟩ <;> rcases hbc with h3 | ⟨h3, h4⟩
  · exact Or.inl (h1.trans h3)
  · exact Or.inl (h3 ▸ h1)
  · exact Or.inl (h1 ▸ h3)
  · exact Or.inr ⟨h1.trans h3, h2.trans h4⟩

theorem lexLe_total (a b : ℚ × ℚ) : (lexLe a b || lexLe b a) = true := by
  simp only [lexLe, Bool.or_eq_true, decide_eq_true_eq]
  rcases lt_trichotomy a.1 b.1 with h | h | h
  · exact Or.inl (Or.inl h)
  · rcases le_total a.2 b.2 with h2 | h2
    · exact Or.inl (Or.inr ⟨h, h2⟩)
    · exact Or.inr (Or.inr ⟨h.symm, h2⟩)
  · exact Or.inr (Or.inl h)

theorem lexsortDesc_perm {Config : Type} (pairs : List ((ℚ × ℚ) × Config)) :
    (lexsortDesc pairs).Perm pairs := by
  unfold lexsortDesc
  exact (List.reverse_perm _).trans (List.mergeSort_perm pairs _)

theorem lexsortDesc_sorted {Config : Type} (pairs : List ((ℚ × ℚ) × Config)) :
    List.Pairwise (fun a b => lexLe b.1 a.1 = true) (lexsortDesc pairs) := by
  unfold lexsortDesc
  rw [List.pairwise_reverse]
  exact List.sorted_mergeSort
    (fun a b c hab hbc => lexLe_trans a.1 b.1 c.1 hab hbc)
    (fun a b => lexLe_total a.1 b.1) pairs

theorem lexsortDesc_length {Config : Type} (pairs : List ((ℚ × ℚ) × Config)) :
    (lexsortDesc pairs).length = pairs.length :=
  (lexsortDesc_perm pairs).length_eq

theorem getNextByRandomSearch_false_length {Config ρ : Type}
    (sampleConfigs : ℕ → ρ → List Config × ρ) (rand : ℕ → ρ → List ℚ × ρ)
    (acqf : Config → ℚ) (n : ℕ) (st : ρ)
    (hs : ((sampleConfigs n st).1).length = n) :
    ((getNextByRandomSearch sampleConfigs rand acqf n false st).1).length = n := by
  simp [getNextByRandomSearch, hs]

theorem getNextByRandomSearch_true_length {Config ρ : Type}
    (sampleConfigs : ℕ → ρ → List Config × ρ) (rand : ℕ → ρ → List ℚ × ρ)
    (acqf : Config → ℚ) (n : ℕ) (st : ρ)
    (hs : ((sampleConfigs n st).1).length = n)
    (hr : ∀ m st1, ((rand m st1).1).length = m) :
    ((getNextByRandomSearch sampleConfigs rand acqf n true st).1).length = n := by
  simp [getNextByRandomSearch, lexsortDesc_length, List.length_zip,
    List.length_map, hs, hr]

theorem foldl_localSearchStep_length {Config ρ Model : Type}
    (ops : SmboOps Config ρ Model) (model : Model) (eta : ℚ)
    (incumbent : Option Config) (l : List ℕ) :
    ∀ acc : List (ℚ × Config) × ρ,
      ((l.foldl (localSearchStep ops model eta incumbent) acc).1).length =
        acc.1.length + l.length := by
  induction l with
  | nil => intro acc; simp
  | cons x xs ih =>
    intro acc
    rw [List.foldl_cons, ih]
    simp [localSearchStep]
    omega

theorem getNextByLocalSearch_length {Config ρ Model : Type}
    (ops : SmboOps Config ρ Model) (model : Model) (eta : ℚ)
    (incumbent : Option Config) (n : ℕ) (st : ρ)
    (hshuffle : ∀ l st1, ((ops.shuffle l st1).1).Perm l) :
    ((getNextByLocalSearch ops model eta incumbent n st).1).length = n := by
  simp only [getNextByLocalSearch, List.length_mergeSort]
  rw [(hshuffle _ _).length_eq, foldl_localSearchStep_length]
  simp

theorem chooseNextRandomPool_length {Config ρ Model : Type} [DecidableEq Config]
    (ops : SmboOps Config ρ Model) (h : OpsContracts ops) (X : List (List ℚ))
    (Y : List ℚ) (rh : RunHistory Config) (incumbent : Option Config) (st : ρ) :
    ((chooseNextRandomPool ops X Y rh incumbent st).1).length = 1010 :=
  getNextByRandomSearch_false_length _ _ _ _ _ (h.sample_len _ _)

theorem chooseNextSortedPool_length {Config ρ Model : Type} [DecidableEq Config]
    (ops : SmboOps Config ρ Model) (h : OpsContracts ops) (X : List (List ℚ))
    (Y : List ℚ) (rh : RunHistory Config) (incumbent : Option Config) (st : ρ) :
    ((chooseNextSortedPool ops X Y rh incumbent st).1).length = 1000 :=
  getNextByRandomSearch_true_length _ _ _ _ _ (h.sample_len _ _) h.rand_len

theorem chooseNextLocalPool_length {Config ρ Model : Type} [DecidableEq Config]
    (ops : SmboOps Config ρ Model) (h : OpsContracts ops) (X : List (List ℚ))
    (Y : List ℚ) (rh : RunHistory Config) (incumbent : Option Config) (st : ρ) :
    ((chooseNextLocalPool ops X Y rh incumbent st).1).length = 10 :=
  getNextByLocalSearch_length _ _ _ _ _ _ h.shuffle_perm

theorem chooseNextMerged_length {Config ρ Model : Type} [DecidableEq Config]
    (ops : SmboOps Config ρ Model) (h : OpsContracts ops) (X : List (List ℚ))
    (Y : List ℚ) (rh : RunHistory Config) (incumbent : Option Config) (st : ρ) :
    (chooseNextMerged ops X Y rh incumbent st).length = 1010 := by
  unfold chooseNextMerged
  rw [List.length_mergeSort, List.length_append,
    chooseNextSortedPool_length ops h, chooseNextLocalPool_length ops h]

theorem chooseNextChallengers_length {Config ρ Model : Type} [DecidableEq Config]
    (ops : SmboOps Config ρ Model) (h : OpsContracts ops) (X : List (List ℚ))
    (Y : List ℚ) (rh : RunHistory Config) (incumbent : Option Config) (st : ρ) :
    ((chooseNextParts ops X Y rh incumbent st).challengers).length = 2020 := by
  show ((((chooseNextMerged ops X Y rh incumbent st).map (fun p => p.2)).zip
      ((chooseNextRandomPool ops X Y rh incumbent st).1.map (fun p => p.2))).flatMap
      (fun p => [p.1, p.2])).length = 2020
  rw [flatMap_pair_length, List.length_zip, List.length_map, List.length_map,
    chooseNextMerged_length ops h, chooseNextRandomPool_length ops h]
  simp

theorem typeEntries_ok (hps : List HPKind) (base : List ℕ)
    (h : typeEntries hps = Except.ok base) : base = hps.map hpEntryVal := by
  induction hps generalizing base with
  | nil =>
    simp only [typeEntries, Except.ok.injEq] at h
    simp [← h]
  | cons p rest ih =>
    cases p with
    | categorical choices =>
      simp only [typeEntries, hpTypeEntry] at h
      cases hrest : typeEntries rest with
      | error e => rw [hrest] at h; exact absurd h (by simp)
      | ok es =>
        rw [hrest] at h
        simp only [Except.ok.injEq] at h
        simp [← h, List.map_cons, hpEntryVal, ih es hrest]
    | constant =>
      simp only [typeEntries, hpTypeEntry] at h
      cases hrest : typeEntries rest with
      | error e => rw [hrest] at h; exact absurd h (by simp)
      | ok es =>
        rw [hrest] at h
        simp only [Except.ok.injEq] at h
        simp [← h, List.map_cons, hpEntryVal, ih es hrest]
    | uniformFloat =>
      simp only [typeEntries, hpTypeEntry] at h
      cases hrest : typeEntries rest with
      | error e => rw [hrest] at h; exact absurd h (by simp)
      | ok es =>
        rw [hrest] at h
        simp only [Except.ok.injEq] at h
        simp [← h, List.map_cons, hpEntryVal, ih es hrest]
    | uniformInt =>
      simp only [typeEntries, hpTypeEntry] at h
      cases hrest : typeEntries rest with
      | error e => rw [hrest] at h; exact absurd h (by simp)
      | ok es =>
        rw [hrest] at h
        simp only [Except.ok.injEq] at h
        simp [← h, List.map_cons, hpEntryVal, ih es hrest]
    | other typeName =>
      simp [typeEntries, hpTypeEntry] at h

theorem foldIters_one {σ : Type} (step : ℕ → σ → σ) (i : ℕ) (s : σ) :
    foldIters step i 1 s = step i s := by
  simp [foldIters, List.range'_succ]

theorem foldIters_cons {σ : Type} (step : ℕ → σ → σ) (i cnt : ℕ) (s : σ) :
    foldIters step i (cnt + 1) s = foldIters step (i + 1) cnt (step i s) := by
  simp [foldIters, List.range'_succ]

theorem smboLoopAux_spec {σ : Type} (step : ℕ → σ → σ) (b : ℕ → Bool)
    (M : ℕ) : ∀ (fuel i : ℕ) (s : σ), 1 ≤ i → i ≤ M → M < i + fuel →
    ∃ n, i ≤ n ∧ n ≤ M ∧
      smboLoopAux step b M fuel i s = some (foldIters step i (n + 1 - i) s, n) ∧
      (n = M ∨ b n = true) ∧
      ∀ k, i ≤ k → k < n → b k = false := by
  intro fuel
  induction fuel with
  | zero => intro i s h1 h2 h3; omega
  | succ fuel ih =>
    intro i s h1 h2 h3
    by_cases hM : i = M
    · refine ⟨i, le_refl i, h2, ?_, Or.inl hM, fun k hk1 hk2 => absurd hk2 (by omega)⟩
      simp [smboLoopAux, hM, foldIters_one]
    · by_cases hb : b i = true
      · refine ⟨i, le_refl i, h2, ?_, Or.inr hb, fun k hk1 hk2 => absurd hk2 (by omega)⟩
        simp [smboLoopAux, hM, hb, foldIters_one]
      · obtain ⟨n, hn1, hn2, hn3, hn4, hn5⟩ :=
          ih (i + 1) (step i s) (by omega) (by omega) (by omega)
        refine ⟨n, by omega, hn2, ?_, hn4, ?_⟩
        · have hrec : smboLoopAux step b M (fuel + 1) i s =
              smboLoopAux step b M fuel (i + 1) (step i s) := by
            simp [smboLoopAux, hM, hb]
          rw [hrec, hn3]
          have hcnt : n + 1 - i = (n - i) + 1 := by omega
          have hcnt2 : n + 1 - (i + 1) = n - i := by omega
          rw [hcnt, foldIters_cons, hcnt2]
        · intro k hk1 hk2
          rcases Nat.eq_or_lt_of_le hk1 with hk | hk
          · rw [← hk]; exact Bool.eq_false_iff.mpr (fun hc => hb hc)
          · exact hn5 k (by omega) hk2

theorem chooseNextParts_random_search {Config ρ Model : Type}
    [DecidableEq Config] (ops : SmboOps Config ρ Model) (X : List (List ℚ))
    (Y : List ℚ) (rh : RunHistory Config) (incumbent : Option Config)
    (st : ρ) :
    (chooseNextParts ops X Y rh incumbent st).next_configs_by_random_search =
      ((chooseNextRandomPool ops X Y rh incumbent st).1).map (fun p => p.2) :=
  rfl

theorem trivOps_contracts : OpsContracts trivOps := by
  refine ⟨?_, ?_, ?_⟩
  · intro n st; simp [trivOps]
  · intro n st; simp [trivOps]
  · intro l st; exact List.Perm.refl l

/-! Claim theorems. -/

/-- C1: the claim states that an initial-design run with status CRASHED or
ABORT makes `run_initial_design` abort the whole process before recording
anything, and that every other status is recorded without an abort.  The
code's guard is `status in [StatusType.CRASHED or StatusType.ABORT]`, a
membership test against the single value `CRASHED`: at status ABORT nothing
aborts and the run is recorded in the RunHistory (while a CRASHED run does
exit with code 42 and records nothing), contradicting the claim for
ABORT. -/
theorem C1_initial_design_abort_bug :
    (run_initial_design (fun _ _ _ => 0) (⟨[], []⟩ : RunHistory ℕ) 0 "inst0" 0
      StatusType.ABORT 5 7 "info").exitCode = none
    ∧ (run_initial_design (fun _ _ _ => 0) (⟨[], []⟩ : RunHistory ℕ) 0 "inst0" 0
      StatusType.ABORT 5 7 "info").runhistory.data =
        [(⟨0, "inst0", 0⟩, ⟨StatusType.ABORT, 5, 7, "info"⟩)]
    ∧ (run_initial_design (fun _ _ _ => 0) (⟨[], []⟩ : RunHistory ℕ) 0 "inst0" 0
      StatusType.CRASHED 5 7 "info").exitCode = some 42
    ∧ (run_initial_design (fun _ _ _ => 0) (⟨[], []⟩ : RunHistory ℕ) 0 "inst0" 0
      StatusType.CRASHED 5 7 "info").runhistory.data = [] := by
  refine ⟨rfl, ?_, rfl, rfl⟩
  simp [run_initial_design, RunHistory.add, RunHistory.update_cost, pyOr,
    StatusType.toNat]

/-- C2: for every input satisfying the collaborator contracts, the
challenger sequence of `choose_next` alternates the two candidate pools
element-wise: the element at even index 2i is element i of the EI-sorted
merge, the element at odd index 2i+1 is element i of the unscored random
pool. -/
theorem C2_challengers_interleave {Config ρ Model : Type} [DecidableEq Config]
    (ops : SmboOps Config ρ Model) (X : List (List ℚ)) (Y : List ℚ)
    (rh : RunHistory Config) (incumbent : Option Config) (st : ρ)
    (h : OpsContracts ops) (i : ℕ) (hi : i < 1010) :
    ((chooseNextParts ops X Y rh incumbent st).challengers)[2 * i]? =
      ((chooseNextParts ops X Y rh incumbent st).next_configs_by_acq_value)[i]?
    ∧ ((chooseNextParts ops X Y rh incumbent st).challengers)[2 * i + 1]? =
      ((chooseNextParts ops X Y rh incumbent st).next_configs_by_random_search)[i]? := by
  have hA : ((chooseNextMerged ops X Y rh incumbent st).map
      (fun p => p.2)).length = 1010 := by
    rw [List.length_map, chooseNextMerged_length ops h]
  have hB : (((chooseNextRandomPool ops X Y rh incumbent st).1).map
      (fun p => p.2)).length = 1010 := by
    rw [List.length_map, chooseNextRandomPool_length ops h]
  constructor
  · show ((((chooseNextMerged ops X Y rh incumbent st).map (fun p => p.2)).zip
        (((chooseNextRandomPool ops X Y rh incumbent st).1).map
          (fun p => p.2))).flatMap (fun p => [p.1, p.2]))[2 * i]? =
      ((chooseNextMerged ops X Y rh incumbent st).map (fun p => p.2))[i]?
    rw [interleave_getElem_even]
    exact zip_getElem_fst _ _ i (by rw [hB]; exact hi)
  · show ((((chooseNextMerged ops X Y rh incumbent st).map (fun p => p.2)).zip
        (((chooseNextRandomPool ops X Y rh incumbent st).1).map
          (fun p => p.2))).flatMap (fun p => [p.1, p.2]))[2 * i + 1]? =
      (((chooseNextRandomPool ops X Y rh incumbent st).1).map (fun p => p.2))[i]?
    rw [interleave_getElem_odd]
    exact zip_getElem_snd _ _ i (by rw [hA]; exact hi)

theorem C2_witness :
    ((chooseNextParts trivOps [] [] ⟨[], []⟩ none 0).challengers)[2 * 0]? =
      ((chooseNextParts trivOps [] [] ⟨[], []⟩ none 0).next_configs_by_acq_value)[0]?
    ∧ ((chooseNextParts trivOps [] [] ⟨[], []⟩ none 0).challengers)[2 * 0 + 1]? =
      ((chooseNextParts trivOps [] [] ⟨[], []⟩ none 0).next_configs_by_random_search)[0]? :=
  C2_challengers_interleave trivOps [] [] ⟨[], []⟩ none 0 trivOps_contracts 0
    (by omega)

/-- C3: for every `max_iters ≥ 1`, `run(max_iters)` terminates and returns
the incumbent after n full transform → choose_next → intensify iterations,
where n is `max_iters` itself or the first iteration after which one of the
three budget counters is observed negative; no earlier iteration saw a
negative budget. -/
theorem C3_run_terminates {σ : Type} (step : ℕ → σ → σ) (budgetNeg : ℕ → Bool)
    (max_iters : ℕ) (s0 : σ) (h : 1 ≤ max_iters) :
    ∃ n, 1 ≤ n ∧ n ≤ max_iters ∧
      smboRun step budgetNeg max_iters s0 = some (foldIters step 1 n s0, n) ∧
      (n = max_iters ∨ budgetNeg n = true) ∧
      ∀ k, 1 ≤ k → k < n → budgetNeg k = false := by
  obtain ⟨n, h1, h2, h3, h4, h5⟩ := smboLoopAux_spec step budgetNeg max_iters
    max_iters 1 s0 le_rfl h (by omega)
  exact ⟨n, h1, h2, by simpa using h3, h4, h5⟩

theorem C3_witness :
    ∃ n, 1 ≤ n ∧ n ≤ 3 ∧
      smboRun (fun _ s => s + 1) (fun _ => false) 3 (0 : ℕ) =
        some (foldIters (fun _ s => s + 1) 1 n 0, n) ∧
      (n = 3 ∨ (fun _ => false) n = true) ∧
      ∀ k, 1 ≤ k → k < n → (fun _ => false) k = false :=
  C3_run_terminates (fun _ s => s + 1) (fun _ => false) 3 0 (by omega)

/-- C4: `choose_next` is deterministic: two runs from the same random state,
the same RunHistory, the same incumbent and the same (X, Y) return identical
challenger sequences. -/
theorem C4_determinism {Config ρ Model : Type} [DecidableEq Config]
    (ops : SmboOps Config ρ Model) (Xa Xb : List (List ℚ)) (Ya Yb : List ℚ)
    (rha rhb : RunHistory Config) (inca incb : Option Config) (sta stb : ρ)
    (hX : Xa = Xb) (hY : Ya = Yb) (hrh : rha = rhb) (hinc : inca = incb)
    (hst : sta = stb) :
    chooseNext ops Xa Ya rha inca sta = chooseNext ops Xb Yb rhb incb stb := by
  rw [hX, hY, hrh, hinc, hst]

theorem C4_witness :
    chooseNext trivOps [] [] ⟨[], []⟩ none 0 =
      chooseNext trivOps [] [] ⟨[], []⟩ none 0 :=
  C4_determinism trivOps [] [] [] [] ⟨[], []⟩ ⟨[], []⟩ none none 0 0
    rfl rfl rfl rfl rfl

/-- C5 counterexample: the claim states the random-search stage draws 1000
configurations for EI scoring plus 10 extra unscored configurations; in the
code the unscored pool is drawn with `num_points=1010`, so its size is 1010,
not 10, already on this concrete call. -/
theorem C5_counterexample :
    ((chooseNextParts trivOps [] [] ⟨[], []⟩ none 0).next_configs_by_random_search).length ≠ 10 := by
  have h : ((chooseNextParts trivOps [] [] ⟨[], []⟩ none 0).next_configs_by_random_search).length = 1010 := by
    rw [chooseNextParts_random_search, List.length_map,
      chooseNextRandomPool_length trivOps trivOps_contracts [] [] ⟨[], []⟩ none 0]
  omega

/-- C5 (amended): the random-search stage of `choose_next` draws 1000
configurations for EI scoring and a separate pool of 1010 unscored
configurations; the scored subset comes back as the stable lexicographic
sort, descending, of the ((EI value, uniform random tiebreak key),
configuration) triples — so exact EI ties are ordered by the independent
random key, not by insertion order — and is a permutation of those
triples. -/
theorem C5_random_search_stage {Config ρ Model : Type} [DecidableEq Config]
    (ops : SmboOps Config ρ Model) (X : List (List ℚ)) (Y : List ℚ)
    (rh : RunHistory Config) (incumbent : Option Config) (st : ρ)
    (h : OpsContracts ops) :
    ((chooseNextParts ops X Y rh incumbent st).next_configs_by_random_search).length = 1010
    ∧ ((chooseNextParts ops X Y rh incumbent st).next_configs_by_random_search_sorted).length = 1000
    ∧ (chooseNextParts ops X Y rh incumbent st).next_configs_by_random_search_sorted =
        (lexsortDesc (chooseNextSortKeyed ops X Y rh incumbent st)).map
          (fun p => (p.1.1, p.2))
    ∧ (lexsortDesc (chooseNextSortKeyed ops X Y rh incumbent st)).Perm
        (chooseNextSortKeyed ops X Y rh incumbent st)
    ∧ List.Pairwise (fun a b => lexLe b.1 a.1 = true)
        (lexsortDesc (chooseNextSortKeyed ops X Y rh incumbent st)) := by
  refine ⟨?_, chooseNextSortedPool_length ops h X Y rh incumbent st, rfl,
    lexsortDesc_perm _, lexsortDesc_sorted _⟩
  show (((chooseNextRandomPool ops X Y rh incumbent st).1).map
    (fun p => p.2)).length = 1010
  rw [List.length_map, chooseNextRandomPool_length ops h]

theorem C5_witness :
    ((chooseNextParts trivOps [] [] ⟨[], []⟩ none 0).next_configs_by_random_search).length = 1010
    ∧ ((chooseNextParts trivOps [] [] ⟨[], []⟩ none 0).next_configs_by_random_search_sorted).length = 1000
    ∧ (chooseNextParts trivOps [] [] ⟨[], []⟩ none 0).next_configs_by_random_search_sorted =
        (lexsortDesc (chooseNextSortKeyed trivOps [] [] ⟨[], []⟩ none 0)).map
          (fun p => (p.1.1, p.2))
    ∧ (lexsortDesc (chooseNextSortKeyed trivOps [] [] ⟨[], []⟩ none 0)).Perm
        (chooseNextSortKeyed trivOps [] [] ⟨[], []⟩ none 0)
    ∧ List.Pairwise (fun a b => lexLe b.1 a.1 = true)
        (lexsortDesc (chooseNextSortKeyed trivOps [] [] ⟨[], []⟩ none 0)) :=
  C5_random_search_stage trivOps [] [] ⟨[], []⟩ none 0 trivOps_contracts

/-- C6: SMBO construction enables censored-data imputation for timed-out
runs exactly when the objective is runtime, with imputation threshold
`log10(cutoff * par_factor)` (the log10 scale used for runtime costs); for
any other objective only SUCCESS runs are used and no imputor is
configured. -/
theorem C6_imputation_setup (log10 : ℚ → ℚ) (run_obj : String)
    (cutoff par_factor : ℚ) (num_params : ℕ) :
    (smboInitRh2EPM log10 run_obj cutoff par_factor num_params).rh2epm.impute_censored_data =
      (run_obj == "runtime")
    ∧ (smboInitRh2EPM log10 run_obj cutoff par_factor num_params).rh2epm.success_states =
      [StatusType.SUCCESS]
    ∧ (smboInitRh2EPM log10 run_obj cutoff par_factor num_params).rh2epm.impute_state =
      (if run_obj = "runtime" then some [StatusType.TIMEOUT] else none)
    ∧ (smboInitRh2EPM log10 run_obj cutoff par_factor num_params).imputor =
      (if run_obj = "runtime" then
        some { cutoff := log10 cutoff, threshold := log10 (cutoff * par_factor),
               change_threshold := 1 / 100, max_iter := 10 }
       else none) := by
  by_cases h : run_obj = "runtime" <;>
    simp [smboInitRh2EPM, h]

/-- C7: when the type-vector construction succeeds, the vector's length is
the number of hyperparameters plus the number of instance-feature columns,
the entry of hyperparameter i is its number of choices for a categorical
and 0 for a constant / uniform float / uniform integer, and every
instance-feature entry is 0. -/
theorem C7_type_vector (hps : List HPKind) (feature_dims : Option ℕ)
    (l : List ℕ) (h : buildTypes hps feature_dims = Except.ok l) :
    l.length = hps.length + feature_dims.getD 0
    ∧ (∀ i, i < hps.length → l[i]? = (hps[i]?).map hpEntryVal)
    ∧ (∀ i, hps.length ≤ i → i < l.length → l[i]? = some 0) := by
  unfold buildTypes at h
  cases hbase : typeEntries hps with
  | error e => rw [hbase] at h; exact absurd h (by simp)
  | ok base =>
    rw [hbase] at h
    have hb := typeEntries_ok hps base hbase
    subst hb
    cases feature_dims with
    | none =>
      simp only [Except.ok.injEq] at h
      subst h
      refine ⟨by simp, ?_, ?_⟩
      · intro i hi
        rw [List.getElem?_map]
      · intro i h1 h2
        rw [List.length_map] at h2
        omega
    | some d =>
      simp only [Except.ok.injEq] at h
      subst h
      refine ⟨by simp, ?_, ?_⟩
      · intro i hi
        rw [List.getElem?_append_left (by simpa using hi), List.getElem?_map]
      · intro i h1 h2
        rw [List.getElem?_append_right (by simpa using h1),
          List.getElem?_replicate]
        have hd : i - hps.length < d := by
          simp only [List.length_append, List.length_map,
            List.length_replicate] at h2
          omega
        simp only [List.length_map]
        simp [hd]

theorem C7_witness :
    ([3, 0, 0, 0, 0] : List ℕ).length =
      ([HPKind.categorical ["a", "b", "c"], HPKind.uniformFloat,
        HPKind.constant] : List HPKind).length + (some 2 : Option ℕ).getD 0 :=
  (C7_type_vector [HPKind.categorical ["a", "b", "c"], HPKind.uniformFloat,
    HPKind.constant] (some 2) [3, 0, 0, 0, 0] rfl).1

/-- C8: the eta bound into the acquisition function by `choose_next` is the
incumbent's aggregate cost from the RunHistory when the RunHistory is
non-empty, and 0.0 when it is empty. -/
theorem C8_eta {Config ρ Model : Type} [DecidableEq Config]
    (ops : SmboOps Config ρ Model) (X : List (List ℚ)) (Y : List ℚ)
    (rh : RunHistory Config) (incumbent : Option Config) (st : ρ) (v : ℚ)
    (hv : rh.empty = false → rh.get_cost_opt incumbent = some v) :
    (chooseNextParts ops X Y rh incumbent st).eta =
      if rh.empty then 0 else v := by
  show chooseNextEta rh incumbent = if rh.empty then 0 else v
  unfold chooseNextEta
  cases hrh : rh.empty with
  | false => simp [hrh, hv hrh]
  | true => simp [hrh]

theorem C8_witness :
    (chooseNextParts trivOps [] []
        ⟨[(⟨0, "i", 0⟩, ⟨StatusType.SUCCESS, 3, 1, ""⟩)], [(0, 3)]⟩
        (some 0) 0).eta =
      if (⟨[(⟨0, "i", 0⟩, ⟨StatusType.SUCCESS, 3, 1, ""⟩)], [(0, 3)]⟩ :
        RunHistory ℕ).empty then 0 else 3 :=
  C8_eta trivOps [] [] _ (some 0) 0 3 (fun _ => rfl)

/-- C9: for every `max_iters ≥ 1` and every budget trace — including one
that is already negative before the loop starts — `run` executes at least
one full transform → choose_next → intensify iteration: its result is the
state after n ≥ 1 applications of the iteration body, because the budget
counters are only polled after an iteration completes. -/
theorem C9_first_iteration_always_runs {σ : Type} (step : ℕ → σ → σ)
    (budgetNeg : ℕ → Bool) (max_iters : ℕ) (s0 : σ) (h : 1 ≤ max_iters) :
    ∃ p, smboRun step budgetNeg max_iters s0 = some p ∧ 1 ≤ p.2 ∧
      p.1 = foldIters step 1 p.2 s0 := by
  obtain ⟨n, h1, h2, h3, h4, h5⟩ := smboLoopAux_spec step budgetNeg max_iters
    max_iters 1 s0 le_rfl h (by omega)
  exact ⟨(foldIters step 1 n s0, n), by simpa using h3, h1, rfl⟩

theorem C9_witness :
    ∃ p, smboRun (fun _ s => s + 1) (fun _ => true) 5 (0 : ℕ) = some p ∧
      1 ≤ p.2 ∧ p.1 = foldIters (fun _ s => s + 1) 1 p.2 0 :=
  C9_first_iteration_always_runs (fun _ s => s + 1) (fun _ => true) 5 0
    (by omega)

/-- C10: for every input satisfying the collaborator contracts,
`choose_next` returns exactly 2020 configurations: the EI-sorted merge has
exactly 1010 elements (1000 sorted random-search candidates plus 10
local-search candidates) and is zipped element-wise with an unscored random
pool of exactly 1010 configurations. -/
theorem C10_pool_sizes {Config ρ Model : Type} [DecidableEq Config]
    (ops : SmboOps Config ρ Model) (X : List (List ℚ)) (Y : List ℚ)
    (rh : RunHistory Config) (incumbent : Option Config) (st : ρ)
    (h : OpsContracts ops) :
    ((chooseNextParts ops X Y rh incumbent st).challengers).length = 2020
    ∧ ((chooseNextParts ops X Y rh incumbent st).next_configs_by_acq_value).length = 1010
    ∧ ((chooseNextParts ops X Y rh incumbent st).next_configs_by_random_search_sorted).length = 1000
    ∧ ((chooseNextParts ops X Y rh incumbent st).next_configs_by_local_search).length = 10
    ∧ ((chooseNextParts ops X Y rh incumbent st).next_configs_by_random_search).length = 1010 := by
  refine ⟨chooseNextChallengers_length ops h X Y rh incumbent st, ?_,
    chooseNextSortedPool_length ops h X Y rh incumbent st,
    chooseNextLocalPool_length ops h X Y rh incumbent st, ?_⟩
  · show ((chooseNextMerged ops X Y rh incumbent st).map
      (fun p => p.2)).length = 1010
    rw [List.length_map, chooseNextMerged_length ops h]
  · show (((chooseNextRandomPool ops X Y rh incumbent st).1).map
      (fun p => p.2)).length = 1010
    rw [List.length_map, chooseNextRandomPool_length ops h]

theorem C10_witness :
    ((chooseNextParts trivOps [] [] ⟨[], []⟩ none 0).challengers).length = 2020
    ∧ ((chooseNextParts trivOps [] [] ⟨[], []⟩ none 0).next_configs_by_acq_value).length = 1010
    ∧ ((chooseNextParts trivOps [] [] ⟨[], []⟩ none 0).next_configs_by_random_search_sorted).length = 1000
    ∧ ((chooseNextParts trivOps [] [] ⟨[], []⟩ none 0).next_configs_by_local_search).length = 10
    ∧ ((chooseNextParts trivOps [] [] ⟨[], []⟩ none 0).next_configs_by_random_search).length = 1010 :=
  C10_pool_sizes trivOps [] [] ⟨[], []⟩ none 0 trivOps_contracts

end SMAC
